import Mathlib

/-!
Verification of the SMT verification-query pipeline of `mcp-server-py2many`
(`src/mcp_server_py2many/server.py`, function `run_py2many_verify`).

The pipeline is embedded shallowly: the Python string operations and the
regular expressions used by the code are implemented as executable Lean
functions over `String` / `List Char`, faithful to Python `re` semantics
(leftmost match, greedy character classes, non-greedy `(.+?)`).
-/

namespace McpPy2many

/-! ### Character classes of Python `re` (ASCII fragment, as used on SMT text) -/

/-- Python regex class `\w`: letters, digits, underscore. -/
def isWordChar (c : Char) : Bool := c.isAlphanum || c == '_'

/-- Python regex class `\s` (and `str.strip` / `str.isspace` characters). -/
def isSpaceChar (c : Char) : Bool :=
  c == ' ' || c == '\t' || c == '\n' || c == '\r' || c == '\x0b' || c == '\x0c'

/-- Regex class `[a-zA-Z0-9_-]` from the precondition-name patterns. -/
def isNameChar (c : Char) : Bool := c.isAlphanum || c == '_' || c == '-'

/-- Regex class `[a-zA-Z_]` (first character of a precondition name). -/
def isNameStart (c : Char) : Bool := c.isAlpha || c == '_'

/-! ### Python string primitives -/

/-- Substring test on char lists: Python `needle in hay`. -/
def containsSub (hay needle : List Char) : Bool :=
  if needle.isPrefixOf hay then true
  else
    match hay with
    | [] => false
    | _ :: t => containsSub t needle

/-- Python `needle in hay` on strings. -/
def pyContains (hay needle : String) : Bool := containsSub hay.toList needle.toList

/-- Python `s.startswith(t)`. -/
def pyStartsWith (s t : String) : Bool := t.toList.isPrefixOf s.toList

/-- Python `s.strip()` on a char list. -/
def stripL (cs : List Char) : List Char :=
  ((cs.dropWhile isSpaceChar).reverse.dropWhile isSpaceChar).reverse

/-- Python `s.strip()`. -/
def pyStrip (s : String) : String := (stripL s.toList).asString

/-- Python `s.lower()` (ASCII). -/
def pyLower (s : String) : String := (s.toList.map Char.toLower).asString

/-- Python `s.split('\n')` on a char list. -/
def splitNl : List Char → List (List Char)
  | [] => [[]]
  | c :: cs =>
    match splitNl cs with
    | [] => [[c]]
    | l :: ls => if c == '\n' then [] :: l :: ls else (c :: l) :: ls

/-- Python `'\n'.join(lines)`. -/
def joinNl : List String → String
  | [] => ""
  | [l] => l
  | l :: ls => l ++ "\n" ++ joinNl ls

/-- Python `' '.join(parts)`. -/
def joinSpace : List String → String
  | [] => ""
  | [v] => v
  | v :: vs => v ++ " " ++ joinSpace vs

/-- `smt_content.strip().split('\n')` (server.py line 244). -/
def docLines (s : String) : List String := (splitNl (stripL s.toList)).map List.asString

/-- `smt_content.split('\n')` (server.py line 231, used for `pre_vars`). -/
def rawLines (s : String) : List String := (splitNl s.toList).map List.asString

/-! ### Verdict classifier (server.py lines 302-319)

```python
z3_output = z3_result.stdout.strip()
is_sat = "sat" in z3_output.lower()
is_unsat = "unsat" in z3_output.lower()
...
if is_sat:        # VERIFICATION FAILED (counterexample found)
elif is_unsat:    # VERIFICATION PASSED (verified)
else:             # UNKNOWN RESULT
```
-/

/-- The three outcome messages the code can append to its report. -/
inductive Verdict where
  | verified
  | counterexampleFound
  | inconclusive
deriving DecidableEq, Repr

/-- The verdict classification of raw z3 stdout, exactly as branched by the code. -/
def classifyOutput (stdout : String) : Verdict :=
  let out := pyLower (pyStrip stdout)
  if pyContains out "sat" then .counterexampleFound
  else if pyContains out "unsat" then .verified
  else .inconclusive

/-! ### The regular-expression scanners of the extraction passes

Python `re.search` scans candidate start positions left to right; each
`match*` function below attempts its pattern at one position, and each
`search*` function wraps it with the position scan.  Greedy character-class
repetition followed by a literal outside the class needs no backtracking, so
each pattern reduces to maximal-run scanning.
-/

/-- Longest prefix of a run ending with `"-pre"`: the greedy match of
`[a-zA-Z0-9_-]*-pre` inside a maximal `[a-zA-Z0-9_-]` run (the last
occurrence of `-pre` wins, since `-pre`'s characters are in the class). -/
def lastEndingPre : List Char → Option (List Char)
  | [] => none
  | c :: rest =>
    match lastEndingPre rest with
    | some p => some (c :: p)
    | none =>
      if ("-pre".toList).isPrefixOf (c :: rest) then some ("-pre".toList) else none

/-- Attempt of `re.search(r'define-fun\s+([a-zA-Z_][a-zA-Z0-9_-]*-pre)', line)`
(server.py line 233) at one position; returns group 1. -/
def matchA (cs : List Char) : Option String :=
  if ("define-fun".toList).isPrefixOf cs then
    let t := cs.drop 10
    if (t.takeWhile isSpaceChar).isEmpty then none
    else
      match t.dropWhile isSpaceChar with
      | [] => none
      | c0 :: t2 =>
        if isNameStart c0 then
          match lastEndingPre (t2.takeWhile isNameChar) with
          | some p => some (c0 :: p).asString
          | none => none
        else none
  else none

/-- `re.search` scan for `matchA`. -/
def searchA : List Char → Option String
  | [] => none
  | c :: cs =>
    match matchA (c :: cs) with
    | some g => some g
    | none => searchA cs

/-- `\)\s+Bool` test after a candidate closing parenthesis of the
non-greedy group in the `params_match` pattern. -/
def closeOk (cs : List Char) : Bool :=
  !(cs.takeWhile isSpaceChar).isEmpty &&
    ("Bool".toList).isPrefixOf (cs.dropWhile isSpaceChar)

/-- Non-greedy `(.+?)\)\s+Bool`: accumulate content (any character but a
newline) up to the earliest `)` that is followed by whitespace and `Bool`,
requiring at least one content character. -/
def findContent : List Char → List Char → Option String
  | _, [] => none
  | acc, c :: cs =>
    if c == ')' && !acc.isEmpty && closeOk cs then some acc.reverse.asString
    else if c == '\n' then none
    else findContent (c :: acc) cs

/-- Attempt of
`re.search(r'define-fun\s+[a-zA-Z_][a-zA-Z0-9_-]*-pre\((.+?)\)\s+Bool', line)`
(server.py line 236) at one position; returns group 1 (the parameter text).
The `(` must immediately follow `-pre`, so the name run must end in `-pre`
and be immediately followed by `(`. -/
def matchB (cs : List Char) : Option String :=
  if ("define-fun".toList).isPrefixOf cs then
    let t := cs.drop 10
    if (t.takeWhile isSpaceChar).isEmpty then none
    else
      match t.dropWhile isSpaceChar with
      | [] => none
      | c0 :: t2 =>
        if isNameStart c0 then
          if ("-pre".toList).isSuffixOf (t2.takeWhile isNameChar) then
            match t2.dropWhile isNameChar with
            | '(' :: inner => findContent [] inner
            | _ => none
          else none
        else none
  else none

/-- `re.search` scan for `matchB`. -/
def searchB : List Char → Option String
  | [] => none
  | c :: cs =>
    match matchB (c :: cs) with
    | some g => some g
    | none => searchB cs

/-- Attempt of `re.search(r'\(define-fun (\w+-pre)', line)` (server.py
line 251) at one position; returns group 1 (`\w` does not include `-`, so a
name with extra hyphens before the `-pre` suffix never matches). -/
def matchD (cs : List Char) : Option String :=
  if ("(define-fun ".toList).isPrefixOf cs then
    let t := cs.drop 12
    let w := t.takeWhile isWordChar
    if w.isEmpty then none
    else if ("-pre".toList).isPrefixOf (t.dropWhile isWordChar) then
      some (w ++ "-pre".toList).asString
    else none
  else none

/-- `re.search` scan for `matchD`. -/
def searchD : List Char → Option String
  | [] => none
  | c :: cs =>
    match matchD (c :: cs) with
    | some g => some g
    | none => searchD cs

/-! ### `re.findall(r'(\w+)\s+Int', params_str)` (server.py line 239) -/

/-- One findall attempt: maximal word run, maximal whitespace run, then the
literal `Int`; on success returns the group and the remainder after `Int`. -/
def tryWInt (cs : List Char) : Option (List Char × List Char) :=
  if (cs.takeWhile isWordChar).isEmpty then none
  else if ((cs.dropWhile isWordChar).takeWhile isSpaceChar).isEmpty then none
  else if ("Int".toList).isPrefixOf ((cs.dropWhile isWordChar).dropWhile isSpaceChar) then
    some (cs.takeWhile isWordChar,
      ((cs.dropWhile isWordChar).dropWhile isSpaceChar).drop 3)
  else none

/-- Fuelled findall scan: on a match, resume after the consumed text; on a
failure, advance one position. -/
def findWIntAux : Nat → List Char → List String
  | 0, _ => []
  | _ + 1, [] => []
  | fuel + 1, c :: cs =>
    match tryWInt (c :: cs) with
    | some (g, rest) => g.asString :: findWIntAux fuel rest
    | none => findWIntAux fuel cs

/-- `re.findall(r'(\w+)\s+Int', ·)` on a char list (the fuel `length` is
always sufficient: every step consumes at least one character). -/
def findWIntL (cs : List Char) : List String := findWIntAux cs.length cs

/-- `re.findall(r'(\w+)\s+Int', params_str)`. -/
def findallWInt (s : String) : List String := findWIntL s.toList

/-! ### Extraction passes over the document (server.py lines 230-254) -/

/-- One line of the `pre_vars` pass (lines 231-240): guarded by the
substring tests `'define-fun' in line and '-pre' in line`, then `func_match`
(`matchA`) and `params_match` (`matchB`); an entry is recorded only when
both regexes match. -/
def preVarLine (line : String) : Option (String × List String) :=
  if pyContains line "define-fun" && pyContains line "-pre" then
    match searchA line.toList with
    | some funcName =>
      match searchB line.toList with
      | some paramsStr => some (funcName, findallWInt paramsStr)
      | none => none
    | none => none
  else none

/-- The `pre_vars` dict built over `smt_content.split('\n')`. -/
def preVars (s : String) : List (String × List String) :=
  (rawLines s).filterMap preVarLine

/-- `pre_vars.get(name, [])`: Python dict lookup where a later assignment to
the same key overwrites an earlier one. -/
def lookupPV (pvs : List (String × List String)) (n : String) : List String :=
  match pvs.reverse.find? (fun e => e.1 == n) with
  | some e => e.2
  | none => []

/-- One line of the `pre_conditions` pass (lines 248-253): guarded by
`'(define-fun ' in line and '-pre ' in line`, then `matchD`. -/
def preNameLine (line : String) : Option String :=
  if pyContains line "(define-fun " && pyContains line "-pre " then
    searchD line.toList
  else none

/-- The `pre_conditions` list (document order). -/
def preConditions (lines : List String) : List String := lines.filterMap preNameLine

/-! ### The assertion rewrite (server.py lines 256-287) -/

/-- The injected precondition call: `f"({pre_func} {vars_str})"` when
`vars_str` is nonempty, else the bare name (lines 268-272). -/
def mkPreCall (preFunc : String) (vars : List String) : String :=
  let varsStr := joinSpace vars
  if varsStr ≠ "" then "(" ++ preFunc ++ " " ++ varsStr ++ ")" else preFunc

/-- `line.strip()[8:-1]`: the assertion body with `(assert ` and the final
`)` removed (line 273). -/
def stripBody (line : String) : String :=
  (((stripL line.toList).drop 8).dropLast).asString

/-- `f"(assert (and {pre_call} {line.strip()[8:-1]}))"` (line 273). -/
def mkAssertLine (preFunc : String) (pvs : List (String × List String))
    (line : String) : String :=
  "(assert (and " ++ mkPreCall preFunc (lookupPV pvs preFunc) ++ " " ++
    stripBody line ++ "))"

/-- The per-line transformation of the rewrite loop (lines 260-281); the
Boolean is this line's contribution to `has_pre_assertion`. -/
def rewriteLine (preNames : List String) (pvs : List (String × List String))
    (line : String) : String × Bool :=
  if pyStartsWith (pyStrip line) "(assert" then
    if pyContains line "not (= " || pyContains line "(not (= " then
      match preNames with
      | [] => (line, false)
      | preFunc :: _ => (mkAssertLine preFunc pvs line, true)
    else (line, false)
  else (line, false)

/-- The guard under which a line is treated as the equivalence assertion. -/
def isEquivAssertLine (line : String) : Bool :=
  pyStartsWith (pyStrip line) "(assert" &&
    (pyContains line "not (= " || pyContains line "(not (= ")

/-- `verification_lines` with the per-line `has_pre_assertion` flags. -/
def verificationResults (smt : String) : List (String × Bool) :=
  (docLines smt).map (rewriteLine (preConditions (docLines smt)) (preVars smt))

/-- The rewritten document and the `has_pre_assertion` flag: when no
rewrite fired the code falls back to the original `smt_content`
(lines 283-287). -/
def verificationSmt (smt : String) : String × Bool :=
  if (verificationResults smt).any (fun r => r.2) then
    (joinNl ((verificationResults smt).map (fun r => r.1)), true)
  else (smt, false)

/-! ### The request pipeline (server.py lines 197-338)

The two `subprocess.run` invocations, the generated file and the deletions
are modelled by oracles: `Env` fixes the behaviour of the external world for
one request, and the pipeline is a function of it.  `subprocess.run(...,
timeout=60)` raising `TimeoutExpired` is the `timeout` outcome.
-/

/-- Outcome of `subprocess.run(cmd, capture_output=True, text=True, timeout=60)`. -/
inductive ProcOutcome where
  | timeout
  | ran (rc : Int) (out err : String)

/-- The external world of one verification request: the `py2many --smt`
subprocess, the generated `.smt` file (if any), and the z3 subprocess as a
function of the query text written to the `_verify.smt` file (`none` models
`TimeoutExpired`; the exit code of z3 is never inspected by the code). -/
structure Env where
  py2many : ProcOutcome
  smtFile : Option String
  z3 : String → Option String

/-- The value returned to the caller, one constructor per `return` of
`run_py2many_verify`: the py2many error string (line 215), the missing-SMT
error (line 220), the assembled report with its verdict branch (lines
306-321), and the timeout message (line 324). -/
inductive VerifyResult where
  | py2manyError (stderr : String)
  | smtNotFound
  | report (verdict : Verdict) (z3Output : String)
  | timeoutError
deriving DecidableEq, Repr

/-- `timeout=60` passed to `subprocess.run` for the solver (line 299). -/
def solverTimeLimitSeconds : Nat := 60

/-- The body of `run_py2many_verify` (lines 204-324). -/
def runPy2manyVerify (env : Env) : VerifyResult :=
  match env.py2many with
  | .timeout => .timeoutError
  | .ran rc _ err =>
    if rc ≠ 0 then .py2manyError err
    else
      match env.smtFile with
      | none => .smtNotFound
      | some smt =>
        match env.z3 (verificationSmt smt).1 with
        | none => .timeoutError
        | some stdout => .report (classifyOutput stdout) (pyStrip stdout)

/-- The three per-request temporary artifacts (lines 200, 218, 290). -/
inductive Artifact where
  | temp
  | smt
  | verify
deriving DecidableEq

/-- Which temporary artifacts exist on disk. -/
structure FSState where
  temp : Bool
  smt : Bool
  verify : Bool
deriving DecidableEq, Repr

/-- The artifacts present when the `finally` block starts, per exit path:
the source file always exists; the `.smt` file exists iff py2many produced
it; the `_verify.smt` file exists iff the pipeline reached line 291 (py2many
succeeded and the `.smt` file existed) — in particular it exists on the z3
timeout path. -/
def fsAtExit (env : Env) : FSState :=
  match env.py2many with
  | .timeout => ⟨true, env.smtFile.isSome, false⟩
  | .ran rc _ _ =>
    if rc ≠ 0 then ⟨true, env.smtFile.isSome, false⟩
    else
      match env.smtFile with
      | none => ⟨true, false, false⟩
      | some _ => ⟨true, true, true⟩

/-- The `finally` block (lines 327-338): unlink the source file, then the
`.smt` and `_verify.smt` files guarded by `os.path.exists`; any `OSError`
(modelled by the `fail` oracle) aborts the remaining deletions and is
swallowed by `except OSError: pass`. -/
def cleanup (fail : Artifact → Bool) (fs : FSState) : FSState :=
  if fail .temp then fs
  else if fs.smt && fail .smt then ⟨false, fs.smt, fs.verify⟩
  else if fs.verify && fail .verify then ⟨false, false, fs.verify⟩
  else ⟨false, false, false⟩

/-- The whole request: the returned value together with the filesystem state
after the `finally` block, which runs on every exit path. -/
def runPy2manyVerifyFull (env : Env) (fail : Artifact → Bool) :
    VerifyResult × FSState :=
  (runPy2manyVerify env, cleanup fail (fsAtExit env))

/-! ### Definitions following the specification's words

These are not translations of the code; they render the spec's vocabulary so
that claims comparing the spec's contracts with the code can be stated.
-/

/-- Spec §4.1: balanced-parenthesis check of a document (the `ParseError`
condition: "fail with ParseError if parentheses are unbalanced").  Stated
from the spec's words for comparison with the code, which has no such check. -/
def specBalancedParens (s : String) : Bool :=
  go s.toList 0
where
  go : List Char → Nat → Bool
    | [], d => d == 0
    | c :: cs, d =>
      if c == '(' then go cs (d + 1)
      else if c == ')' then (if d == 0 then false else go cs (d - 1))
      else go cs d

/-- Spec §3: a `PreconditionDefinition` is a `define-fun` form whose name
carries the reserved `-pre` suffix.  Stated from the spec's words (name =
the token after `(define-fun `) for comparison with the code's extraction. -/
def specPreDefName (line : String) : Option String :=
  let t := stripL line.toList
  if ("(define-fun ".toList).isPrefixOf t then
    let name := (t.drop 12).takeWhile fun c =>
      !isSpaceChar c && !(c == '(') && !(c == ')')
    if ("-pre".toList).isSuffixOf name then some name.asString else none
  else none

/-- Spec-side reading of claim C10: from a typed parameter list, the
parameters "whose declared type is Int", in textual order. -/
def specIntParams (ps : List (String × String)) : List String :=
  (ps.filter fun p => p.2 == "Int").map fun p => p.1

/-- The parameter text of a definition in the only format the code's
`params_match` regex accepts: `(name type)` groups in declaration order. -/
def mkParamsChars : List (String × String) → List Char
  | [] => []
  | p :: rest =>
    '(' :: (p.1.toList ++ (' ' :: (p.2.toList ++ (')' :: mkParamsChars rest))))

end McpPy2many

namespace McpPy2many

/-- Claim C1: the solver output `"unsat\n"` is classified by the code as
`counterexampleFound` (the "VERIFICATION FAILED" branch), because the code
tests the substring `"sat"` before `"unsat"`; the claim (and the code's own
tool description, which says UNSAT means verified) requires `verified`. -/
theorem classify_unsat_reports_counterexample :
    classifyOutput "unsat\n" = Verdict.counterexampleFound := by decide

/-- Claim C4: a garbage solver output with no whole result token on a line of
its own, such as `"unsatisfactory"`, is classified as `counterexampleFound`
by the substring test, while the claim requires `inconclusive`. -/
theorem classify_garbage_reports_counterexample :
    classifyOutput "unsatisfactory" = Verdict.counterexampleFound ∧
      classifyOutput "unknown" = Verdict.inconclusive := by
  exact ⟨by decide, by decide⟩

/-! ### Concrete SMT documents used in the claim instances -/

/-- A standard SMT-LIB document: one precondition definition (standard
spacing `f-pre ((x Int))`) and one equivalence assertion. -/
def docC3 : String :=
  "(declare-const x Int)\n(define-fun f-pre ((x Int)) Bool (>= x 0))\n(assert (not (= (correct x) (buggy x))))\n(check-sat)"

/-- A document with one precondition and two negated-equality assertions. -/
def docC2 : String :=
  "(define-fun p-pre ((x Int)) Bool (>= x 0))\n(assert (not (= (f x) (g x))))\n(assert (not (= (h x) (k x))))"

/-- A document with no precondition definition. -/
def docC5 : String := "(declare-const x Int)\n(assert (> x 0))"

/-- A document whose first precondition definition has a hyphenated name
(`my-f-pre`) and whose second is `g-pre`. -/
def docC6 : String :=
  "(define-fun my-f-pre ((x Int)) Bool (>= x 0))\n(define-fun g-pre ((y Int)) Bool (>= y 1))\n(assert (not (= (f x) (g x))))"

/-- A document with two preconditions recognized by the extraction pass. -/
def docC6b : String :=
  "(define-fun a-pre ((x Int)) Bool true)\n(define-fun b-pre ((x Int)) Bool true)\n(assert (not (= (f x) (g x))))"

/-- A document with unbalanced parentheses (the assertion lacks two closing
parentheses). -/
def docC7 : String :=
  "(define-fun p-pre ((x Int)) Bool (>= x 0))\n(assert (not (= (f x) (g x))"

/-- An environment whose solver subprocess exceeds its time budget. -/
def envTimeout : Env := ⟨.ran 0 "" "", some docC5, fun _ => none⟩

/-! ### Claim C3 -/

/-- Claim C3: on a standard SMT-LIB document with one precondition
`f-pre ((x Int)) Bool` and one equivalence assertion, the code injects the
bare name `f-pre` with no argument list (its parameter regex requires
`-pre(` with no space, which standard SMT-LIB spacing never produces, so
`pre_vars` stays empty), while the claim requires the call `(f-pre x)`. -/
theorem rewrite_injects_bare_precondition_name :
    verificationSmt docC3 =
      ("(declare-const x Int)\n(define-fun f-pre ((x Int)) Bool (>= x 0))\n(assert (and f-pre (not (= (correct x) (buggy x)))))\n(check-sat)",
        true) ∧
    preVars docC3 = [] := by
  exact ⟨by decide, by decide⟩

/-! ### Claim C2 -/

/-- Claim C2 counterexample: in `docC2` the second negated-equality
assertion is rewritten as well — the output differs from what the claim
(only the first assertion rewritten) predicts. -/
theorem rewrite_second_assertion_also_rewritten :
    verificationSmt docC2 =
      ("(define-fun p-pre ((x Int)) Bool (>= x 0))\n(assert (and p-pre (not (= (f x) (g x)))))\n(assert (and p-pre (not (= (h x) (k x)))))",
        true) ∧
    (verificationSmt docC2).1 ≠
      "(define-fun p-pre ((x Int)) Bool (>= x 0))\n(assert (and p-pre (not (= (f x) (g x)))))\n(assert (not (= (h x) (k x))))" := by
  exact ⟨by decide, by decide⟩

/-- Claim C2 amended: the rewrite loop applies to every assertion line
matching the negated-equality pattern, not only the first; each such line
is replaced by the conjunction of the same (first) precondition call with
its original body. -/
theorem rewrite_applies_to_every_matching_assertion (smt : String) (i : Nat)
    (line n : String) (rest : List String)
    (hpre : preConditions (docLines smt) = n :: rest)
    (hline : (docLines smt)[i]? = some line)
    (hmatch : isEquivAssertLine line = true) :
    (verificationResults smt)[i]? =
      some ("(assert (and " ++ mkPreCall n (lookupPV (preVars smt) n) ++ " " ++
        stripBody line ++ "))", true) := by
  unfold verificationResults
  rw [List.getElem?_map, hline, Option.map_some']
  rw [hpre]
  unfold isEquivAssertLine at hmatch
  rw [Bool.and_eq_true] at hmatch
  obtain ⟨h1, h2⟩ := hmatch
  simp [rewriteLine, h1, h2, mkAssertLine]

/-- Witness for `rewrite_applies_to_every_matching_assertion` at the second
matching assertion of `docC2`. -/
theorem rewrite_applies_witness :
    (docLines docC2)[2]? = some "(assert (not (= (h x) (k x))))" ∧
    (verificationResults docC2)[2]? =
      some ("(assert (and " ++ mkPreCall "p-pre" (lookupPV (preVars docC2) "p-pre") ++
        " " ++ stripBody "(assert (not (= (h x) (k x))))" ++ "))", true) :=
  ⟨by decide,
    rewrite_applies_to_every_matching_assertion docC2 2
      "(assert (not (= (h x) (k x))))" "p-pre" [] (by decide) (by decide) (by decide)⟩

/-! ### Claim C5 -/

/-- In the rewrite loop, an empty `pre_conditions` list never sets
`has_pre_assertion`. -/
theorem rewriteLine_nil_flag (pvs : List (String × List String)) (l : String) :
    (rewriteLine [] pvs l).2 = false := by
  unfold rewriteLine
  split
  · split
    · rfl
    · rfl
  · rfl

/-- A line not matching the assertion pattern never sets
`has_pre_assertion`. -/
theorem rewriteLine_notmatch_flag {l : String}
    (h : isEquivAssertLine l = false) (pn : List String)
    (pvs : List (String × List String)) : (rewriteLine pn pvs l).2 = false := by
  unfold rewriteLine
  cases hA : pyStartsWith (pyStrip l) "(assert" with
  | false => simp [hA]
  | true =>
    cases hB : (pyContains l "not (= " || pyContains l "(not (= ") with
    | false => simp [hA, hB]
    | true =>
      exfalso
      unfold isEquivAssertLine at h
      rw [hA, hB] at h
      exact Bool.noConfusion h

/-- Claim C5: with zero precondition definitions, or with no assertion line
matching the negated-equality pattern, the document is returned unchanged
(byte-for-byte the original string) with `has_pre_assertion = false`. -/
theorem rewrite_no_precondition_identity (smt : String)
    (h : preConditions (docLines smt) = [] ∨
         ∀ l ∈ docLines smt, isEquivAssertLine l = false) :
    verificationSmt smt = (smt, false) := by
  have hany : (verificationResults smt).any (fun r => r.2) = false := by
    rw [List.any_eq_false]
    intro x hx
    unfold verificationResults at hx
    rw [List.mem_map] at hx
    obtain ⟨l, hl, rfl⟩ := hx
    rcases h with h | h
    · rw [h]
      simp [rewriteLine_nil_flag]
    · simp [rewriteLine_notmatch_flag (h l hl)]
  simp [verificationSmt, hany]

/-- Witness for `rewrite_no_precondition_identity` on `docC5`. -/
theorem rewrite_no_precondition_identity_witness :
    preConditions (docLines docC5) = [] ∧ verificationSmt docC5 = (docC5, false) :=
  ⟨by decide, rewrite_no_precondition_identity docC5 (Or.inl (by decide))⟩

/-! ### Claim C6 -/

/-- Claim C6 counterexample: in `docC6` the first precondition definition in
document order is `my-f-pre` (a definition by the spec's own notion: a
`define-fun` whose name ends in `-pre`), but the injected call uses
`g-pre`, because the extraction regex `\w+-pre` cannot match a name with an
extra hyphen. -/
theorem first_hyphenated_precondition_skipped :
    specPreDefName "(define-fun my-f-pre ((x Int)) Bool (>= x 0))" = some "my-f-pre" ∧
    specPreDefName "(define-fun g-pre ((y Int)) Bool (>= y 1))" = some "g-pre" ∧
    verificationSmt docC6 =
      ("(define-fun my-f-pre ((x Int)) Bool (>= x 0))\n(define-fun g-pre ((y Int)) Bool (>= y 1))\n(assert (and g-pre (not (= (f x) (g x)))))",
        true) ∧
    ("my-f-pre" : String) ≠ "g-pre" := by
  exact ⟨by decide, by decide, by decide, by decide⟩

/-- Splitting a `filterMap` at its first produced element. -/
theorem filterMap_eq_cons_split {α β : Type} (f : α → Option β) :
    ∀ (l : List α) (b : β) (bs : List β), l.filterMap f = b :: bs →
      ∃ l₁ x l₂, l = l₁ ++ x :: l₂ ∧ (∀ y ∈ l₁, f y = none) ∧ f x = some b := by
  intro l
  induction l with
  | nil => intro b bs h; simp at h
  | cons a t ih =>
    intro b bs h
    rw [List.filterMap_cons] at h
    cases hfa : f a with
    | none =>
      rw [hfa] at h
      obtain ⟨l₁, x, l₂, hl, h1, h2⟩ := ih b bs h
      refine ⟨a :: l₁, x, l₂, by rw [hl, List.cons_append], ?_, h2⟩
      intro y hy
      rcases List.mem_cons.mp hy with hy | hy
      · rw [hy]; exact hfa
      · exact h1 y hy
    | some c =>
      rw [hfa] at h
      have hb : c = b := by injection h
      refine ⟨[], a, t, rfl, ?_, ?_⟩
      · intro y hy
        simp at hy
      · rw [hfa, hb]

/-- Claim C6 amended: the injected call is built from the first precondition
the `pre_conditions` pass recognizes (guard `'(define-fun '` and `'-pre '`
plus regex `\w+-pre`), which is the first such line in document order;
every later entry of the list is ignored by the rewrite. -/
theorem rewrite_uses_first_extracted_precondition (smt n : String)
    (rest : List String) (h : preConditions (docLines smt) = n :: rest) :
    (∃ l₁ x l₂, docLines smt = l₁ ++ x :: l₂ ∧
        (∀ y ∈ l₁, preNameLine y = none) ∧ preNameLine x = some n) ∧
    ∀ pvs line, rewriteLine (n :: rest) pvs line = rewriteLine [n] pvs line := by
  constructor
  · exact filterMap_eq_cons_split preNameLine (docLines smt) n rest h
  · intro pvs line
    rfl

/-- Witness for `rewrite_uses_first_extracted_precondition` on `docC6b`. -/
theorem rewrite_uses_first_extracted_precondition_witness :
    preConditions (docLines docC6b) = ["a-pre", "b-pre"] ∧
    rewriteLine ["a-pre", "b-pre"] (preVars docC6b) "(assert (not (= (f x) (g x))))" =
      rewriteLine ["a-pre"] (preVars docC6b) "(assert (not (= (f x) (g x))))" :=
  ⟨by decide,
    (rewrite_uses_first_extracted_precondition docC6b "a-pre" ["b-pre"]
      (by decide)).2 (preVars docC6b) "(assert (not (= (f x) (g x))))"⟩

/-! ### Claim C7 -/

/-- Claim C7 counterexample: `docC7` has unbalanced parentheses, yet the
pipeline performs the rewrite on it (even marking it applied) and proceeds
to the solver and a report — there is no parse failure. -/
theorem unbalanced_document_rewritten_without_error :
    specBalancedParens docC7 = false ∧
    verificationSmt docC7 =
      ("(define-fun p-pre ((x Int)) Bool (>= x 0))\n(assert (and p-pre (not (= (f x) (g x)))",
        true) ∧
    runPy2manyVerify ⟨.ran 0 "" "", some docC7, fun _ => some "sat"⟩ =
      .report .counterexampleFound "sat" := by
  exact ⟨by decide, by decide, by decide⟩

/-- Claim C7 amended: the code performs no syntactic validation of the SMT
text; for every generated document (balanced or not) the request's outcome
is entirely the solver stage's outcome on the rewritten text — no parse
error exists. -/
theorem pipeline_has_no_parse_failure (env : Env) (smt out err : String)
    (h1 : env.py2many = .ran 0 out err) (h2 : env.smtFile = some smt) :
    runPy2manyVerify env =
      (match env.z3 (verificationSmt smt).1 with
       | none => .timeoutError
       | some stdout => .report (classifyOutput stdout) (pyStrip stdout)) := by
  unfold runPy2manyVerify
  rw [h1, h2]
  simp

/-- Witness for `pipeline_has_no_parse_failure` on a timing-out solver. -/
theorem pipeline_has_no_parse_failure_witness :
    runPy2manyVerify envTimeout =
      (match envTimeout.z3 (verificationSmt docC5).1 with
       | none => VerifyResult.timeoutError
       | some stdout => .report (classifyOutput stdout) (pyStrip stdout)) :=
  pipeline_has_no_parse_failure envTimeout docC5 "" "" rfl rfl

/-! ### Claim C8 -/

/-- Claim C8: the solver subprocess is bounded by a 60-second budget; when
it does not finish in budget (`TimeoutExpired`), the request fails with the
timeout error and no report carrying a verdict is produced. -/
theorem solver_timeout_yields_timeout_error :
    solverTimeLimitSeconds = 60 ∧
    ∀ (env : Env) (smt out err : String),
      env.py2many = .ran 0 out err → env.smtFile = some smt →
      env.z3 (verificationSmt smt).1 = none →
      runPy2manyVerify env = .timeoutError ∧
      ∀ v raw, runPy2manyVerify env ≠ .report v raw := by
  refine ⟨rfl, ?_⟩
  intro env smt out err h1 h2 h3
  have hmain : runPy2manyVerify env = .timeoutError := by
    unfold runPy2manyVerify
    rw [h1, h2]
    simp [h3]
  refine ⟨hmain, fun v raw hc => ?_⟩
  rw [hmain] at hc
  exact VerifyResult.noConfusion hc

/-- Witness for `solver_timeout_yields_timeout_error` on `envTimeout`. -/
theorem solver_timeout_yields_timeout_error_witness :
    runPy2manyVerify envTimeout = VerifyResult.timeoutError ∧
    runPy2manyVerify envTimeout ≠ .report .verified "" :=
  ⟨(solver_timeout_yields_timeout_error.2 envTimeout docC5 "" "" rfl rfl rfl).1,
    (solver_timeout_yields_timeout_error.2 envTimeout docC5 "" "" rfl rfl rfl).2
      .verified ""⟩

/-! ### Claim C9 -/

/-- Claim C9: the `finally` cleanup runs on every exit path — the returned
value is always the body's result (a deletion failure is never escalated),
and when no deletion fails, no temporary artifact remains. -/
theorem cleanup_runs_on_every_exit_path (env : Env) (fail : Artifact → Bool) :
    (runPy2manyVerifyFull env fail).1 = runPy2manyVerify env ∧
    ((∀ a, fail a = false) →
      (runPy2manyVerifyFull env fail).2 = ⟨false, false, false⟩) := by
  refine ⟨rfl, ?_⟩
  intro hf
  show cleanup fail (fsAtExit env) = _
  unfold cleanup
  rw [hf .temp, hf .smt, hf .verify]
  simp

/-- Witness for `cleanup_runs_on_every_exit_path`: the timeout exit path
with all deletions succeeding. -/
theorem cleanup_runs_on_every_exit_path_witness :
    (runPy2manyVerifyFull envTimeout (fun _ => false)).1 =
      runPy2manyVerify envTimeout ∧
    (runPy2manyVerifyFull envTimeout (fun _ => false)).2 = ⟨false, false, false⟩ :=
  ⟨(cleanup_runs_on_every_exit_path envTimeout (fun _ => false)).1,
    (cleanup_runs_on_every_exit_path envTimeout (fun _ => false)).2 (fun _ => rfl)⟩

/-! ### Claim C10 -/

/-- Claim C10 counterexample: the parameter `a` of declared type `Intx`
(not `Int`) is extracted, so the extracted list is not "exactly the
parameters whose declared type is Int". -/
theorem int_prefixed_type_parameter_extracted :
    preVars "(define-fun h-pre((a Intx) (b Int) (c Real)) Bool true)" =
      [("h-pre", ["a", "b"])] ∧
    specIntParams [("a", "Intx"), ("b", "Int"), ("c", "Real")] = ["b"] ∧
    (["a", "b"] : List String) ≠ ["b"] := by
  exact ⟨by decide, by decide, by decide⟩

/-! #### Characterization of the findall scan on a well-formed parameter list -/

/-- A word character is not a whitespace character. -/
theorem word_not_space {c : Char} (h : isWordChar c = true) :
    isSpaceChar c = false := by
  by_contra hc
  rw [Bool.not_eq_false] at hc
  unfold isSpaceChar at hc
  simp only [Bool.or_eq_true, beq_iff_eq] at hc
  rcases hc with ((((h' | h') | h') | h') | h') | h' <;> subst h' <;>
    exact absurd h (by decide)

/-- `takeWhile` passes over a block that satisfies the predicate. -/
theorem takeWhile_append_of_all {α : Type} (p : α → Bool) (l : List α) :
    ∀ w : List α, (∀ c ∈ w, p c = true) →
      (w ++ l).takeWhile p = w ++ l.takeWhile p := by
  intro w
  induction w with
  | nil => intro _; simp
  | cons c w' ih =>
    intro hw
    rw [List.cons_append, List.takeWhile_cons_of_pos (hw c (List.mem_cons_self c w')),
      ih (fun x hx => hw x (List.mem_cons_of_mem _ hx)), List.cons_append]

/-- `dropWhile` drops a block that satisfies the predicate. -/
theorem dropWhile_append_of_all {α : Type} (p : α → Bool) (l : List α) :
    ∀ w : List α, (∀ c ∈ w, p c = true) →
      (w ++ l).dropWhile p = l.dropWhile p := by
  intro w
  induction w with
  | nil => intro _; simp
  | cons c w' ih =>
    intro hw
    rw [List.cons_append, List.dropWhile_cons_of_pos (hw c (List.mem_cons_self c w')),
      ih (fun x hx => hw x (List.mem_cons_of_mem _ hx))]

/-- The findall attempt fails at a position that does not start with a word
character. -/
theorem tryWInt_none_of_nonword {c : Char} (h : isWordChar c = false)
    (cs : List Char) : tryWInt (c :: cs) = none := by
  unfold tryWInt
  rw [List.takeWhile_cons_of_neg (by simp [h])]
  simp

/-- The findall attempt fails on a word run directly followed by `)`. -/
theorem tryWInt_run_close {w : List Char} (hw : ∀ c ∈ w, isWordChar c = true)
    (hne : w.isEmpty = false) (tail : List Char) :
    tryWInt (w ++ (')' :: tail)) = none := by
  unfold tryWInt
  rw [takeWhile_append_of_all isWordChar (')' :: tail) w hw,
    dropWhile_append_of_all isWordChar (')' :: tail) w hw,
    List.takeWhile_cons_of_neg (by decide : ¬isWordChar ')' = true),
    List.dropWhile_cons_of_neg (by decide : ¬isWordChar ')' = true),
    List.takeWhile_cons_of_neg (by decide : ¬isSpaceChar ')' = true)]
  simp [hne]

/-- On a word run, a single space and a non-space continuation, the findall
attempt reduces to the `Int` literal test at the continuation. -/
theorem tryWInt_run_space {w : List Char} (hw : ∀ c ∈ w, isWordChar c = true)
    (hne : w.isEmpty = false) {d : Char} (hd : isSpaceChar d = false)
    (tl : List Char) :
    tryWInt (w ++ (' ' :: d :: tl)) =
      (if ("Int".toList).isPrefixOf (d :: tl) then some (w, (d :: tl).drop 3)
       else none) := by
  unfold tryWInt
  rw [takeWhile_append_of_all isWordChar (' ' :: d :: tl) w hw,
    dropWhile_append_of_all isWordChar (' ' :: d :: tl) w hw,
    List.takeWhile_cons_of_neg (by decide : ¬isWordChar ' ' = true),
    List.dropWhile_cons_of_neg (by decide : ¬isWordChar ' ' = true),
    List.takeWhile_cons_of_pos (by decide : isSpaceChar ' ' = true),
    List.takeWhile_cons_of_neg (by simp [hd]),
    List.dropWhile_cons_of_pos (by decide : isSpaceChar ' ' = true),
    List.dropWhile_cons_of_neg (by simp [hd])]
  simp [hne]

/-- On a successful findall attempt the remainder is strictly shorter. -/
theorem tryWInt_rest_lt {cs g rest : List Char}
    (h : tryWInt cs = some (g, rest)) : rest.length < cs.length := by
  unfold tryWInt at h
  split_ifs at h with hA hB hC
  rw [Option.some.injEq, Prod.mk.injEq] at h
  obtain ⟨hg, hr⟩ := h
  have e2 : rest = ((cs.dropWhile isWordChar).dropWhile isSpaceChar).drop 3 :=
    hr.symm
  have l1 : cs.length =
      (cs.takeWhile isWordChar).length + (cs.dropWhile isWordChar).length := by
    rw [← List.length_append, List.takeWhile_append_dropWhile]
  have l2 : (cs.dropWhile isWordChar).length =
      ((cs.dropWhile isWordChar).takeWhile isSpaceChar).length +
        ((cs.dropWhile isWordChar).dropWhile isSpaceChar).length := by
    rw [← List.length_append, List.takeWhile_append_dropWhile]
  have p1 : 0 < (cs.takeWhile isWordChar).length := by
    cases hc : cs.takeWhile isWordChar with
    | nil => rw [hc] at hA; simp at hA
    | cons a l => simp [hc]
  have p2 : 0 < ((cs.dropWhile isWordChar).takeWhile isSpaceChar).length := by
    cases hc : (cs.dropWhile isWordChar).takeWhile isSpaceChar with
    | nil => rw [hc] at hB; simp at hB
    | cons a l => simp [hc]
  have l3 : rest.length =
      ((cs.dropWhile isWordChar).dropWhile isSpaceChar).length - 3 := by
    rw [e2, List.length_drop]
  omega

/-- Sufficient fuel makes the findall scan fuel-independent. -/
theorem findWIntAux_fuel (f : Nat) :
    ∀ cs : List Char, cs.length ≤ f → findWIntAux f cs = findWIntL cs := by
  induction f using Nat.strong_induction_on with
  | _ f ih =>
    intro cs hcs
    cases cs with
    | nil => cases f <;> rfl
    | cons c cs' =>
      have hcs' : cs'.length + 1 ≤ f := by simpa using hcs
      cases f with
      | zero => omega
      | succ f' =>
        cases htry : tryWInt (c :: cs') with
        | none =>
          have h1 : findWIntAux (f' + 1) (c :: cs') = findWIntAux f' cs' := by
            simp [findWIntAux, htry]
          have h2 : findWIntL (c :: cs') = findWIntAux cs'.length cs' := by
            show findWIntAux (cs'.length + 1) (c :: cs') = _
            simp [findWIntAux, htry]
          rw [h1, h2, ih f' (by omega) cs' (by omega),
            ih cs'.length (by omega) cs' (le_refl _)]
        | some p =>
          obtain ⟨g, rest⟩ := p
          have hlt : rest.length < cs'.length + 1 := by
            simpa using tryWInt_rest_lt htry
          have h1 : findWIntAux (f' + 1) (c :: cs') =
              g.asString :: findWIntAux f' rest := by
            simp [findWIntAux, htry]
          have h2 : findWIntL (c :: cs') =
              g.asString :: findWIntAux cs'.length rest := by
            show findWIntAux (cs'.length + 1) (c :: cs') = _
            simp [findWIntAux, htry]
          rw [h1, h2, ih f' (by omega) rest (by omega),
            ih cs'.length (by omega) rest (by omega)]

/-- Scan step on a failing position. -/
theorem findWIntL_cons_none {c : Char} {cs : List Char}
    (h : tryWInt (c :: cs) = none) : findWIntL (c :: cs) = findWIntL cs := by
  show findWIntAux (cs.length + 1) (c :: cs) = _
  simp [findWIntAux, h]
  exact findWIntAux_fuel cs.length cs (le_refl _)

/-- Scan step on a succeeding position. -/
theorem findWIntL_cons_some {c : Char} {cs g rest : List Char}
    (h : tryWInt (c :: cs) = some (g, rest)) :
    findWIntL (c :: cs) = g.asString :: findWIntL rest := by
  show findWIntAux (cs.length + 1) (c :: cs) = _
  simp [findWIntAux, h]
  have hlt : rest.length < cs.length + 1 := by simpa using tryWInt_rest_lt h
  exact findWIntAux_fuel cs.length rest (by omega)

/-- The scan passes over a word run directly followed by `)`. -/
theorem findWIntL_skip_run (tail : List Char) :
    ∀ w : List Char, (∀ c ∈ w, isWordChar c = true) →
      findWIntL (w ++ (')' :: tail)) = findWIntL tail := by
  intro w
  induction w with
  | nil =>
    intro _
    rw [List.nil_append,
      findWIntL_cons_none (tryWInt_none_of_nonword (by decide) tail)]
  | cons c w' ih =>
    intro hw
    have h1 : tryWInt ((c :: w') ++ (')' :: tail)) = none :=
      tryWInt_run_close hw rfl tail
    rw [List.cons_append] at h1 ⊢
    rw [findWIntL_cons_none h1, ih (fun x hx => hw x (List.mem_cons_of_mem _ hx))]

/-- `Int` is not a prefix of `type ++ ")..."` when it is not a prefix of
`type` itself. -/
theorem int_not_prefix_append {type : List Char}
    (h : ("Int".toList).isPrefixOf type = false) (tail : List Char) :
    ("Int".toList).isPrefixOf (type ++ (')' :: tail)) = false := by
  rcases type with _ | ⟨a, _ | ⟨b, _ | ⟨c, tr⟩⟩⟩ <;>
    simp [List.isPrefixOf] at h ⊢
  tauto

/-- The scan passes over a `name type` group whose type does not begin with
`Int`. -/
theorem findWIntL_group_notint {d : Char} (type' tail : List Char)
    (hd : isWordChar d = true) (ht : ∀ c ∈ type', isWordChar c = true)
    (hnotint : ("Int".toList).isPrefixOf (d :: (type' ++ (')' :: tail))) = false) :
    ∀ name : List Char, (∀ c ∈ name, isWordChar c = true) →
      findWIntL (name ++ (' ' :: d :: (type' ++ (')' :: tail)))) =
        findWIntL tail := by
  intro name
  induction name with
  | nil =>
    intro _
    rw [List.nil_append,
      findWIntL_cons_none (tryWInt_none_of_nonword (by decide) _)]
    have : findWIntL ((d :: type') ++ (')' :: tail)) = findWIntL tail :=
      findWIntL_skip_run tail (d :: type') (by
        intro x hx
        rcases List.mem_cons.mp hx with hx | hx
        · rw [hx]; exact hd
        · exact ht x hx)
    rw [List.cons_append] at this
    exact this
  | cons c name' ih =>
    intro hw
    have h1 : tryWInt ((c :: name') ++ (' ' :: d :: (type' ++ (')' :: tail)))) =
        none := by
      rw [tryWInt_run_space hw rfl (word_not_space hd) _,
        if_neg (by rw [hnotint]; simp)]
    rw [List.cons_append] at h1 ⊢
    rw [findWIntL_cons_none h1, ih (fun x hx => hw x (List.mem_cons_of_mem _ hx))]

/-- The scan captures the name of a `name type` group whose type begins with
`Int`, and continues after the consumed `Int`. -/
theorem findWIntL_group_int (name tr tail : List Char)
    (hn : ∀ c ∈ name, isWordChar c = true) (hne : name.isEmpty = false)
    (htr : ∀ c ∈ tr, isWordChar c = true) :
    findWIntL (name ++ (' ' :: 'I' :: 'n' :: 't' :: (tr ++ (')' :: tail)))) =
      name.asString :: findWIntL tail := by
  have h1 : tryWInt (name ++ (' ' :: 'I' :: 'n' :: 't' :: (tr ++ (')' :: tail)))) =
      some (name, tr ++ (')' :: tail)) := by
    rw [tryWInt_run_space hn hne (by decide) _]
    rw [if_pos (by simp [List.isPrefixOf])]
    rfl
  cases name with
  | nil => simp at hne
  | cons c name' =>
    rw [List.cons_append] at h1 ⊢
    rw [findWIntL_cons_some h1, findWIntL_skip_run tail tr htr]

/-- A list with `Int` as a prefix splits off the three characters. -/
theorem of_int_prefix {l : List Char}
    (h : ("Int".toList).isPrefixOf l = true) :
    ∃ tr, l = 'I' :: 'n' :: 't' :: tr := by
  rcases l with _ | ⟨a, _ | ⟨b, _ | ⟨c, tr⟩⟩⟩ <;> simp [List.isPrefixOf] at h
  obtain ⟨ha, hb, hc⟩ := h
  subst ha; subst hb; subst hc
  exact ⟨tr, rfl⟩

/-- The findall scan on a well-formed `(name type)` parameter list yields
exactly the names whose type begins with `Int`, in order. -/
theorem findWInt_mkParams :
    ∀ ps : List (String × String),
      (∀ p ∈ ps, p.1.toList ≠ [] ∧ (∀ c ∈ p.1.toList, isWordChar c = true) ∧
        p.2.toList ≠ [] ∧ (∀ c ∈ p.2.toList, isWordChar c = true)) →
      findWIntL (mkParamsChars ps) =
        (ps.filter fun p => ("Int".toList).isPrefixOf p.2.toList).map
          (fun p => p.1) := by
  intro ps
  induction ps with
  | nil => intro _; rfl
  | cons p ps' ih =>
    intro h
    obtain ⟨h1, h2, h3, h4⟩ := h p (List.mem_cons_self p ps')
    have hrest := fun q hq => h q (List.mem_cons_of_mem _ hq)
    show findWIntL ('(' :: (p.1.toList ++
        (' ' :: (p.2.toList ++ (')' :: mkParamsChars ps'))))) = _
    rw [findWIntL_cons_none (tryWInt_none_of_nonword (by decide) _)]
    cases hint : ("Int".toList).isPrefixOf p.2.toList with
    | true =>
      obtain ⟨tr, htr⟩ := of_int_prefix hint
      have htrw : ∀ c ∈ tr, isWordChar c = true := by
        intro x hx
        apply h4
        rw [htr]
        exact List.mem_cons_of_mem _
          (List.mem_cons_of_mem _ (List.mem_cons_of_mem _ hx))
      have hne : p.1.toList.isEmpty = false := by
        cases hc : p.1.toList with
        | nil => exact absurd hc h1
        | cons a l => rfl
      rw [htr, List.cons_append, List.cons_append, List.cons_append]
      rw [findWIntL_group_int p.1.toList tr (mkParamsChars ps') h2 hne htrw]
      rw [List.filter_cons_of_pos (by rw [hint]), List.map_cons, ih hrest]
      rfl
    | false =>
      obtain ⟨d, type', htype⟩ : ∃ d t', p.2.toList = d :: t' := by
        cases hc : p.2.toList with
        | nil => exact absurd hc h3
        | cons a l => exact ⟨a, l, rfl⟩
      have hd : isWordChar d = true := h4 d (by rw [htype]; exact List.mem_cons_self d type')
      have ht' : ∀ c ∈ type', isWordChar c = true := fun x hx =>
        h4 x (by rw [htype]; exact List.mem_cons_of_mem _ hx)
      have hnotint :
          ("Int".toList).isPrefixOf (d :: (type' ++ (')' :: mkParamsChars ps'))) =
            false := by
        have := @int_not_prefix_append (d :: type')
          (by rw [← htype]; exact hint) (mkParamsChars ps')
        rw [List.cons_append] at this
        exact this
      rw [htype, List.cons_append]
      rw [findWIntL_group_notint type' (mkParamsChars ps') hd ht' hnotint
        p.1.toList h2]
      rw [List.filter_cons_of_neg (by rw [hint]; exact Bool.false_ne_true), ih hrest]

/-- Claim C10 amended: the parameter list recorded for a precondition is the
findall of `(\w+)\s+Int` over its parameter text; on a well-formed typed
parameter list this is exactly the parameters whose declared type begins
with `Int` (hence every `Int`-typed parameter, but also e.g. `Intx`), in
declaration order; and when the recorded list is empty the precondition
name is injected bare, with no argument list. -/
theorem param_extraction_matches_int_prefixed_types
    (ps : List (String × String))
    (h : ∀ p ∈ ps, p.1.toList ≠ [] ∧ (∀ c ∈ p.1.toList, isWordChar c = true) ∧
      p.2.toList ≠ [] ∧ (∀ c ∈ p.2.toList, isWordChar c = true)) :
    findWIntL (mkParamsChars ps) =
      (ps.filter fun p => ("Int".toList).isPrefixOf p.2.toList).map
        (fun p => p.1) ∧
    ∀ n : String, mkPreCall n [] = n :=
  ⟨findWInt_mkParams ps h, fun _ => rfl⟩

/-- Witness for `param_extraction_matches_int_prefixed_types` on the
parameter list of the C10 counterexample. -/
theorem param_extraction_witness :
    findWIntL (mkParamsChars [("a", "Intx"), ("b", "Int"), ("c", "Real")]) =
      ([("a", "Intx"), ("b", "Int"), ("c", "Real")].filter fun p =>
        ("Int".toList).isPrefixOf p.2.toList).map (fun p => p.1) ∧
    mkPreCall "h-pre" [] = "h-pre" :=
  ⟨(param_extraction_matches_int_prefixed_types
      [("a", "Intx"), ("b", "Int"), ("c", "Real")] (by decide)).1,
    (param_extraction_matches_int_prefixed_types
      [("a", "Intx"), ("b", "Int"), ("c", "Real")] (by decide)).2 "h-pre"⟩

end McpPy2many
